import Mathlib

set_option maxHeartbeats 1000000
set_option autoImplicit false

/-! Shallow embedding of the demo HTTP server in src/main.rs.

Strings are modelled as `List Char` (the result of Rust's lossy UTF-8
decoding of the read buffer).  Each Rust helper is translated to a Lean
function of the same name; the connection handler is embedded as a pure
function from the decoded buffer and a store model to a trace recording
the responses written, the store lookups performed, the liveness probes
issued, and whether an out-of-bounds slice index panic occurred. -/

/-- Unicode white-space test, matching Rust `char::is_whitespace`
(the Unicode White_Space property). -/
def isWsp (c : Char) : Bool :=
  (0x09 ≤ c.toNat && c.toNat ≤ 0x0d) || c.toNat = 0x20 || c.toNat = 0x85 ||
  c.toNat = 0xa0 || c.toNat = 0x1680 || (0x2000 ≤ c.toNat && c.toNat ≤ 0x200a) ||
  c.toNat = 0x2028 || c.toNat = 0x2029 || c.toNat = 0x202f || c.toNat = 0x205f ||
  c.toNat = 0x3000

/-- Accumulator worker for `splitWhitespace`. -/
def splitWhitespaceAux : List Char → List Char → List (List Char)
  | [], acc => if acc.isEmpty then [] else [acc.reverse]
  | c :: cs, acc =>
    if isWsp c then
      if acc.isEmpty then splitWhitespaceAux cs []
      else acc.reverse :: splitWhitespaceAux cs []
    else splitWhitespaceAux cs (c :: acc)

/-- Rust `str::split_whitespace`: maximal runs of non-white-space
characters, empty tokens never produced. -/
def splitWhitespace (s : List Char) : List (List Char) :=
  splitWhitespaceAux s []

/-- Accumulator worker for `splitOnChar`. -/
def splitOnCharAux (c : Char) : List Char → List Char → List (List Char)
  | [], acc => [acc.reverse]
  | x :: xs, acc =>
    if x = c then acc.reverse :: splitOnCharAux c xs []
    else splitOnCharAux c xs (x :: acc)

/-- Rust `str::split(c)`: the segments between occurrences of `c`
(always at least one segment; empty segments kept). -/
def splitOnChar (c : Char) (s : List Char) : List (List Char) :=
  splitOnCharAux c s []

/-- Boolean test that `pat` is an initial segment of `s`. -/
def leadsWith : List Char → List Char → Bool
  | [], _ => true
  | _ :: _, [] => false
  | a :: as, b :: bs => a = b && leadsWith as bs

/-- Boolean test that `pat` occurs as a contiguous run inside `s`. -/
def containsSub (pat : List Char) : List Char → Bool
  | [] => leadsWith pat []
  | c :: rest => leadsWith pat (c :: rest) || containsSub pat rest

/-- The remainder of `s` strictly after the first occurrence of `c`,
or `none` if `c` does not occur. -/
def afterFirst (c : Char) : List Char → Option (List Char)
  | [] => none
  | x :: xs => if x = c then some xs else afterFirst c xs

/-- Model of `std::collections::HashMap` insert: key-unique association
list, an insert for an existing key replaces the old binding. -/
def mapInsert (k v : List Char) (m : List (List Char × List Char)) :
    List (List Char × List Char) :=
  (m.filter (fun p => decide (p.1 ≠ k))) ++ [(k, v)]

/-- Model of `HashMap::get`: the value bound to `k`, if any. -/
def mapGet (k : List Char) (m : List (List Char × List Char)) :
    Option (List Char) :=
  (m.find? (fun p => decide (p.1 = k))).map Prod.snd

/-- One iteration of the `for param in query_str.split('&')` loop of
`parse_query_string` (src/main.rs lines 134-139): split the fragment on
`'='` and insert the first two segments as key and value when both exist. -/
def parseFragment (m : List (List Char × List Char)) (frag : List Char) :
    List (List Char × List Char) :=
  match (splitOnChar ('=') frag).get? 0, (splitOnChar ('=') frag).get? 1 with
  | some k, some v => mapInsert k v m
  | _, _ => m

/-- The key/value pair a fragment contributes, if any: the first two
segments of the split on `'='`. -/
def parseKV (frag : List Char) : Option (List Char × List Char) :=
  match (splitOnChar ('=') frag).get? 0, (splitOnChar ('=') frag).get? 1 with
  | some k, some v => some (k, v)
  | _, _ => none

/-- The loop of `parse_query_string` over the fragments of the query
portion, starting from the empty map. -/
def parseFragments (qs : List Char) : List (List Char × List Char) :=
  (splitOnChar ('&') qs).foldl parseFragment []

/-- src/main.rs lines 131-142: `query.split('?').nth(1)` selects the
segment between the first and second `'?'`; absent a `'?'`, the map is
empty. -/
def parse_query_string (query : List Char) : List (List Char × List Char) :=
  match (splitOnChar ('?') query).get? 1 with
  | some qs => parseFragments qs
  | none => []

/-- Follows the spec wording for the query parser: the ENTIRE portion of
the string after the first `'?'` is split on `'&'` (compare with
`parse_query_string`, which stops at a second `'?'`). -/
def parse_query_string_specReading (query : List Char) :
    List (List Char × List Char) :=
  match afterFirst ('?') query with
  | some qs => parseFragments qs
  | none => []

/-- The query portion `parse_query_string` works on: the segment of the
input between the first and second `'?'` (empty when there is no `'?'`). -/
def queryPortion (query : List Char) : List Char :=
  ((splitOnChar ('?') query).get? 1).getD []

/-- The key/value pairs contributed by the fragments of a query portion,
in fragment order, duplicates retained. -/
def fragPairs (qs : List Char) : List (List Char × List Char) :=
  (splitOnChar ('&') qs).filterMap parseKV

/-- The stored entity of src/main.rs lines 144-148. -/
structure User where
  id : Nat
  name : List Char
deriving DecidableEq

/-- Abstract model of the SQLite store seen by the handler: a point
lookup keyed by the raw `id` query-string value (`none` covers both a
missing row and a store error, which the handler treats alike), and the
outcome of the `SELECT 1` liveness probe. -/
structure Store where
  lookup : List Char → Option User
  probeOk : Bool

/-- Observable behaviour of one `handle_connection` call: the response
byte strings written, the ids passed to the store lookup, the number of
liveness probes issued, and whether a slice-index panic occurred. -/
structure HandlerTrace where
  writes : List (List Char)
  storeGets : List (List Char)
  probes : Nat
  panicked : Bool
deriving DecidableEq

/-- Rust `str::lines().next().unwrap_or("")`: the text before the first
`'\n'`, with one trailing `'\r'` stripped. -/
def firstLine (s : List Char) : List Char :=
  let l := s.takeWhile (fun c => c ≠ ('\n'))
  if l.getLast? = some ('\r') then l.dropLast else l

def resp200Html : List Char :=
  ("HTTP/1.1 200 OK\r\nContent-Type: text/html; charset=UTF-8\r\n\r\n<html><body>Hola</body></html>\r\n").data

def resp400 : List Char :=
  ("HTTP/1.1 400 BAD REQUEST\r\nContent-Type: text/html; charset=UTF-8\r\n\r\n<html><body>400 Bad Request</body></html>\r\n").data

def resp200Healthy : List Char :=
  ("HTTP/1.1 200 OK\r\nContent-Type: text/plain; charset=UTF-8\r\n\r\nHealthy\r\n").data

def resp500UnHealthy : List Char :=
  ("HTTP/1.1 500 INTERNAL SERVER ERROR\r\nContent-Type: text/plain; charset=UTF-8\r\n\r\nUnHealthy\r\n").data

/-- The `/get` success response of src/main.rs line 69:
`format!("HTTP/1.1 200 OK\r\nContent-Type: text/json; charset=UTF-8\r\n\r\nname - \x7b\x7d\nid - \x7b\x7d\r\n", u.name, u.id)`. -/
def respGetOk (u : User) : List Char :=
  ("HTTP/1.1 200 OK\r\nContent-Type: text/json; charset=UTF-8\r\n\r\n").data ++
    (("name - ").data ++ u.name ++ ("\nid - ").data ++ (Nat.repr u.id).data) ++
    ("\r\n").data

/-- src/main.rs lines 43-98.  `buf` is the lossily decoded read buffer.
The guard at line 50 tests `parts.len() < 1`, yet line 55 indexes
`parts[1]`; the `none` branch of the match on `parts.get? 1` is the
out-of-bounds panic of that indexing. -/
def handle_connection (buf : List Char) (store : Store) : HandlerTrace :=
  let parts := splitWhitespace buf
  if parts.length < 1 then
    ⟨[], [], 0, false⟩
  else
    match parts.get? 1 with
    | none => ⟨[], [], 0, true⟩
    | some pt =>
      if pt.length = 0 then
        ⟨[], [], 0, false⟩
      else
        let path := pt.takeWhile (fun c => c ≠ ('?'))
        if path = ("/").data then
          ⟨[resp200Html], [], 0, false⟩
        else if path = ("/get").data then
          let req_params := (splitWhitespace (firstLine buf)).getD 1 []
          match mapGet (("id").data) (parse_query_string req_params) with
          | some uid =>
            match store.lookup uid with
            | some u => ⟨[respGetOk u], [uid], 0, false⟩
            | none => ⟨[resp400], [uid], 0, false⟩
          | none => ⟨[resp400], [], 0, false⟩
        else if path = ("/health").data then
          if store.probeOk then ⟨[resp200Healthy], [], 1, false⟩
          else ⟨[resp500UnHealthy], [], 1, false⟩
        else
          ⟨[resp400], [], 0, false⟩

/-- A store with no rows and a healthy probe, for concrete evaluations. -/
def noStore : Store :=
  { lookup := fun _ => none, probeOk := true }

/-- A store holding the single user id 5 named value5, reachable under
the raw query value "5", for concrete evaluations. -/
def demoStore : Store :=
  { lookup := fun s => if s = ("5").data then some ⟨5, ("value5").data⟩ else none
    probeOk := true }

/-- Abstract state of the SQLite database file used by `new_conn`:
whether the file exists and the rows of the `users` table. -/
structure DbState where
  present : Bool
  rows : List User
deriving DecidableEq

/-- One `INSERT INTO users (name) VALUES (?)`: SQLite assigns the
INTEGER PRIMARY KEY as max rowid + 1, which over sequential inserts
into an initially empty table is `rows.length + 1`. -/
def insertUser (rows : List User) (name : List Char) : List User :=
  rows ++ [⟨rows.length + 1, name⟩]

/-- The seeded name for loop index `i`: `"value" + i.to_string()`. -/
def seedName (i : Nat) : List Char :=
  ("value").data ++ (Nat.repr i).data

/-- src/main.rs lines 109-128: create the database file when absent and
remember that it was just created; `CREATE TABLE IF NOT EXISTS` touches
no rows; only a just-created database is seeded with 10000 rows. -/
def new_conn (db : DbState) : DbState :=
  if db.present then db
  else
    { present := true
      rows := (List.range 10000).foldl (fun rows i => insertUser rows (seedName i)) [] }

/-- The header section of a response: status line, CRLF, and the single
Content-Type header with its UTF-8 charset suffix. -/
def headerOf (status ctype : List Char) : List Char :=
  status ++ ("\r\nContent-Type: ").data ++ ctype ++ ("; charset=UTF-8").data

/-- The response framing asserted by the spec: header section, blank
line, body, trailing CRLF, with the header section mentioning neither a
Content-Length header nor chunked transfer encoding. -/
def wellFormedResp (r : List Char) : Prop :=
  ∃ status ctype body,
    r = headerOf status ctype ++ ("\r\n\r\n").data ++ body ++ ("\r\n").data ∧
    containsSub (("Content-Length").data) (headerOf status ctype) = false ∧
    containsSub (("chunked").data) (headerOf status ctype) = false

example : splitWhitespace (("GET / HTTP/1.1").data) =
    [("GET").data, ("/").data, ("HTTP/1.1").data] := by decide

example : parse_query_string (("/get?a=1&b=2").data) =
    [(("a").data, ("1").data), (("b").data, ("2").data)] := by decide

example : mapGet (("a").data) (parse_query_string (("/get?a=1&a=2").data)) =
    some (("2").data) := by decide

example : parse_query_string (("/get?k=v1=v2").data) =
    [(("k").data, ("v1").data)] := by decide

example : handle_connection (("GET").data) noStore = ⟨[], [], 0, true⟩ := by decide

example : handle_connection (("GET / HTTP/1.1").data) noStore =
    ⟨[resp200Html], [], 0, false⟩ := by decide

example : handle_connection (("GET /get?id=5 HTTP/1.1").data) demoStore =
    ⟨[respGetOk ⟨5, ("value5").data⟩], [("5").data], 0, false⟩ := by decide

lemma splitOnCharAux_no_occ (c : Char) :
    ∀ (a : List Char), c ∉ a → ∀ acc, splitOnCharAux c a acc = [acc.reverse ++ a] := by
  intro a
  induction a with
  | nil => intro _ acc; simp [splitOnCharAux]
  | cons x xs ih =>
    intro h acc
    have hx : ¬ x = c := by
      intro hc
      exact h (hc ▸ List.mem_cons_self x xs)
    have hxs : c ∉ xs := fun hm => h (List.mem_cons_of_mem _ hm)
    simp only [splitOnCharAux, if_neg hx]
    rw [ih hxs (x :: acc)]
    simp

lemma splitOnCharAux_first_occ (c : Char) :
    ∀ (a : List Char), c ∉ a → ∀ (rest acc : List Char),
      splitOnCharAux c (a ++ c :: rest) acc = (acc.reverse ++ a) :: splitOnChar c rest := by
  intro a
  induction a with
  | nil => intro _ rest acc; simp [splitOnCharAux, splitOnChar]
  | cons x xs ih =>
    intro h rest acc
    have hx : ¬ x = c := by
      intro hc
      exact h (hc ▸ List.mem_cons_self x xs)
    have hxs : c ∉ xs := fun hm => h (List.mem_cons_of_mem _ hm)
    simp only [List.cons_append, splitOnCharAux, if_neg hx, List.append_eq]
    rw [ih hxs rest (x :: acc)]
    simp

lemma splitOnChar_no_occ (c : Char) (a : List Char) (h : c ∉ a) :
    splitOnChar c a = [a] := by
  simpa using splitOnCharAux_no_occ c a h []

lemma splitOnChar_first_occ (c : Char) (a rest : List Char) (h : c ∉ a) :
    splitOnChar c (a ++ c :: rest) = a :: splitOnChar c rest := by
  simpa using splitOnCharAux_first_occ c a h rest []

lemma leadsWith_self_append (p t : List Char) : leadsWith p (p ++ t) = true := by
  induction p with
  | nil => rfl
  | cons a as ih => simp [leadsWith, ih]

lemma containsSub_self_append (p t : List Char) : containsSub p (p ++ t) = true := by
  cases p with
  | nil =>
    cases t with
    | nil => rfl
    | cons c cs => simp [containsSub, leadsWith]
  | cons a as =>
    simp [containsSub, leadsWith_self_append, leadsWith]

lemma containsSub_append_left (x : List Char) :
    ∀ (pat s : List Char), containsSub pat s = true → containsSub pat (x ++ s) = true := by
  induction x with
  | nil => intro pat s h; simpa using h
  | cons c cs ih =>
    intro pat s h
    simp only [List.cons_append, containsSub, Bool.or_eq_true]
    exact Or.inr (ih pat s h)

lemma find?_filter_ne_self (k : List Char) (m : List (List Char × List Char)) :
    (m.filter (fun p => decide (p.1 ≠ k))).find? (fun p => decide (p.1 = k)) = none := by
  rw [List.find?_eq_none]
  intro p hp
  have h2 := (List.mem_filter.mp hp).2
  simp only [decide_eq_true_eq] at h2 ⊢
  exact h2

lemma find?_filter_ne_other (k k0 : List Char) (h : ¬ k0 = k)
    (m : List (List Char × List Char)) :
    (m.filter (fun p => decide (p.1 ≠ k0))).find? (fun p => decide (p.1 = k)) =
      m.find? (fun p => decide (p.1 = k)) := by
  induction m with
  | nil => rfl
  | cons p m ih =>
    by_cases hp0 : p.1 = k0
    · have hpk : ¬ p.1 = k := by rw [hp0]; exact h
      rw [List.filter_cons_of_neg (by simp [hp0])]
      rw [ih, List.find?_cons_of_neg _ (by simp [hpk])]
    · rw [List.filter_cons_of_pos (by simp [hp0])]
      by_cases hpk : p.1 = k
      · rw [List.find?_cons_of_pos _ (by simp [hpk]),
          List.find?_cons_of_pos _ (by simp [hpk])]
      · rw [List.find?_cons_of_neg _ (by simp [hpk]),
          List.find?_cons_of_neg _ (by simp [hpk]), ih]

lemma mapGet_mapInsert (k k0 v0 : List Char) (m : List (List Char × List Char)) :
    mapGet k (mapInsert k0 v0 m) = if k0 = k then some v0 else mapGet k m := by
  unfold mapGet mapInsert
  rw [List.find?_append]
  by_cases h : k0 = k
  · subst h
    rw [find?_filter_ne_self]
    simp [List.find?]
  · rw [if_neg h, find?_filter_ne_other k k0 h]
    have h1 : List.find? (fun p => decide (p.1 = k)) [(k0, v0)] = none := by
      simp [List.find?, h]
    rw [h1, Option.or_none]

lemma parseFragment_eq (m : List (List Char × List Char)) (frag : List Char) :
    parseFragment m frag =
      match parseKV frag with
      | some kv => mapInsert kv.1 kv.2 m
      | none => m := by
  unfold parseFragment parseKV
  cases h0 : (splitOnChar ('=') frag).get? 0 <;>
    cases h1 : (splitOnChar ('=') frag).get? 1 <;> simp [h0, h1]

lemma mapGet_foldl (frags : List (List Char)) :
    ∀ (m : List (List Char × List Char)) (k : List Char),
      mapGet k (frags.foldl parseFragment m) =
        (((frags.filterMap parseKV).reverse.find? (fun p => decide (p.1 = k))).map
            Prod.snd).or (mapGet k m) := by
  induction frags with
  | nil => intro m k; simp
  | cons f fs ih =>
    intro m k
    simp only [List.foldl_cons, List.filterMap_cons]
    cases hkv : parseKV f with
    | none =>
      rw [parseFragment_eq]
      simp only [hkv]
      exact ih m k
    | some kv =>
      rw [parseFragment_eq]
      simp only [hkv]
      rw [ih (mapInsert kv.1 kv.2 m) k]
      rw [List.reverse_cons, List.find?_append]
      cases hf : (fs.filterMap parseKV).reverse.find? (fun p => decide (p.1 = k)) with
      | some p => simp [Option.or]
      | none =>
        simp only [Option.none_or]
        rw [mapGet_mapInsert]
        by_cases hk : kv.1 = k
        · simp [List.find?, hk, Option.or]
        · simp [List.find?, hk, Option.or]

lemma keys_nodup_mapInsert (k v : List Char) (m : List (List Char × List Char))
    (h : (m.map Prod.fst).Nodup) : ((mapInsert k v m).map Prod.fst).Nodup := by
  unfold mapInsert
  rw [List.map_append, List.nodup_append]
  refine ⟨?_, by simp, ?_⟩
  · exact List.Nodup.sublist (List.Sublist.map _ (List.filter_sublist m)) h
  · intro x hx hx2
    simp only [List.map_cons, List.map_nil, List.mem_singleton] at hx2
    subst hx2
    rcases List.mem_map.mp hx with ⟨p, hp, rfl⟩
    have h2 := (List.mem_filter.mp hp).2
    simp only [decide_eq_true_eq] at h2
    exact h2 rfl

lemma keys_nodup_foldl (frags : List (List Char)) :
    ∀ m, (m.map Prod.fst).Nodup →
      (((frags.foldl parseFragment m).map Prod.fst)).Nodup := by
  induction frags with
  | nil => intro m h; exact h
  | cons f fs ih =>
    intro m h
    simp only [List.foldl_cons]
    apply ih
    rw [parseFragment_eq]
    cases hkv : parseKV f with
    | none => simpa [hkv] using h
    | some kv =>
      simp only [hkv]
      exact keys_nodup_mapInsert kv.1 kv.2 m h

lemma fragPairs_nil : fragPairs [] = [] := rfl

lemma seed_foldl : ∀ n : Nat,
    (List.range n).foldl (fun rows i => insertUser rows (seedName i)) [] =
    (List.range n).map (fun i => ⟨i + 1, seedName i⟩) := by
  intro n
  induction n with
  | zero => rfl
  | succ n ih =>
    rw [List.range_succ, List.foldl_append, List.map_append, ih]
    simp [insertUser]

/-- C6: `parse_query_string` produces a key-unique mapping and is
deterministic with last-write-wins on duplicate keys: the keys of the
result are pairwise distinct, and the value bound to any key `k` is the
value of the last fragment of the query portion that parses to a pair
with key `k` (the head of the reversed pair list). -/
theorem parse_query_string_lastWriteWins : ∀ (query k : List Char),
    ((parse_query_string query).map Prod.fst).Nodup ∧
    mapGet k (parse_query_string query) =
      ((fragPairs (queryPortion query)).reverse.find?
          (fun p => decide (p.1 = k))).map Prod.snd := by
  intro query k
  constructor
  · unfold parse_query_string
    cases h : (splitOnChar ('?') query).get? 1 with
    | none => simp
    | some qs => exact keys_nodup_foldl _ [] (by simp)
  · unfold parse_query_string queryPortion
    cases h : (splitOnChar ('?') query).get? 1 with
    | none => simp [fragPairs_nil, mapGet]
    | some qs =>
      simp only [Option.getD_some]
      unfold parseFragments fragPairs
      rw [mapGet_foldl]
      cases hfind : (List.filterMap parseKV (splitOnChar ('&') qs)).reverse.find?
          (fun p => decide (p.1 = k)) <;> rfl

/-- C4 counterexample: on the input `/g?k=v?w&x=y` the code parses only
the segment between the two `'?'` characters, so its result differs
from the spec reading that parses the entire remainder after the first
`'?'`. -/
theorem parse_query_string_second_qmark_cex :
    parse_query_string (("/g?k=v?w&x=y").data) ≠
      parse_query_string_specReading (("/g?k=v?w&x=y").data) ∧
    parse_query_string (("/g?k=v?w&x=y").data) = [((("k").data), (("v").data))] ∧
    parse_query_string_specReading (("/g?k=v?w&x=y").data) =
      [((("k").data), (("v?w").data)), ((("x").data), (("y").data))] := by
  decide

/-- C4 amended: `parse_query_string` splits on `'&'` only the segment of
its input between the first and second `'?'`; text after a second `'?'`
is discarded (when there is no second `'?'`, the segment extends to the
end, as the spec says). -/
theorem parse_query_string_between_qmarks : ∀ (a b c : List Char),
    ('?') ∉ a → ('?') ∉ b →
    parse_query_string (a ++ ('?') :: (b ++ ('?') :: c)) = parseFragments b ∧
    parse_query_string (a ++ ('?') :: b) = parseFragments b := by
  intro a b c ha hb
  constructor
  · unfold parse_query_string
    rw [splitOnChar_first_occ ('?') a (b ++ ('?') :: c) ha,
      splitOnChar_first_occ ('?') b c hb]
    rfl
  · unfold parse_query_string
    rw [splitOnChar_first_occ ('?') a b ha, splitOnChar_no_occ ('?') b hb]
    rfl

theorem parse_query_string_between_qmarks_w :
    parse_query_string ((("/g").data) ++ ('?') :: ((("k=v").data) ++ ('?') :: (("zzz").data))) =
      parseFragments (("k=v").data) ∧
    parse_query_string ((("/g").data) ++ ('?') :: (("k=v").data)) =
      parseFragments (("k=v").data) :=
  parse_query_string_between_qmarks (("/g").data) (("k=v").data) (("zzz").data)
    (by decide) (by decide)

/-- C5 counterexample: the fragment `k=v1=v2` yields the value `v1`, the
segment between the first and second `'='`, not the full remainder
`v1=v2` claimed by the spec. -/
theorem parseFragment_second_eq_cex :
    mapGet (("k").data) (parse_query_string (("?k=v1=v2").data)) = some (("v1").data) ∧
    mapGet (("k").data) (parse_query_string (("?k=v1=v2").data)) ≠ some (("v1=v2").data) := by
  decide

/-- C5 amended: a fragment `k=v1=v2` is split on `'='` and only the first
two segments are kept, so the key `k` is bound to `v1` (the text between
the first and second `'='`); a fragment containing no `'='` at all is
skipped, leaving the map unchanged. -/
theorem parseFragment_value_second_segment :
    ∀ (m : List (List Char × List Char)) (k v w frag : List Char),
    ('=') ∉ k → ('=') ∉ v → ('=') ∉ frag →
    parseFragment m (k ++ ('=') :: (v ++ ('=') :: w)) = mapInsert k v m ∧
    parseFragment m frag = m := by
  intro m k v w frag hk hv hf
  constructor
  · unfold parseFragment
    rw [splitOnChar_first_occ ('=') k (v ++ ('=') :: w) hk,
      splitOnChar_first_occ ('=') v w hv]
    rfl
  · unfold parseFragment
    rw [splitOnChar_no_occ ('=') frag hf]
    rfl

theorem parseFragment_value_second_segment_w :
    parseFragment [] ((("k").data) ++ ('=') :: ((("v1").data) ++ ('=') :: (("v2").data))) =
      mapInsert (("k").data) (("v1").data) [] ∧
    parseFragment [] (("a").data) = [] :=
  parseFragment_value_second_segment [] (("k").data) (("v1").data) (("v2").data)
    (("a").data) (by decide) (by decide) (by decide)

/-- C10: a fragment of the form `k=` is not skipped: both `next()` calls
on the `'='` split succeed (the second yielding the empty segment), so
the key `k` is inserted bound to the empty string; in particular a query
`?k=` parses to a map binding `k` to `""`. -/
theorem parseFragment_empty_value : ∀ (m : List (List Char × List Char)) (k : List Char),
    ('=') ∉ k → ('&') ∉ k → ('?') ∉ k →
    parseFragment m (k ++ [('=')]) = mapInsert k [] m ∧
    mapGet k (parse_query_string (('?') :: (k ++ [('=')]))) = some [] := by
  intro m k hk ha hq
  have hfrag : ∀ m' : List (List Char × List Char),
      parseFragment m' (k ++ [('=')]) = mapInsert k [] m' := by
    intro m'
    unfold parseFragment
    rw [splitOnChar_first_occ ('=') k [] hk]
    rfl
  refine ⟨hfrag m, ?_⟩
  unfold parse_query_string
  have h1 : splitOnChar ('?') (('?') :: (k ++ [('=')])) =
      [] :: splitOnChar ('?') (k ++ [('=')]) := by
    simpa using splitOnChar_first_occ ('?') [] (k ++ [('=')]) (by simp)
  have h2 : splitOnChar ('?') (k ++ [('=')]) = [k ++ [('=')]] := by
    refine splitOnChar_no_occ _ _ ?_
    intro hmem
    rcases List.mem_append.mp hmem with h | h
    · exact hq h
    · simp at h
  rw [h1, h2]
  show mapGet k (parseFragments (k ++ [('=')])) = some []
  unfold parseFragments
  have h3 : splitOnChar ('&') (k ++ [('=')]) = [k ++ [('=')]] := by
    refine splitOnChar_no_occ _ _ ?_
    intro hmem
    rcases List.mem_append.mp hmem with h | h
    · exact ha h
    · simp at h
  rw [h3]
  simp only [List.foldl_cons, List.foldl_nil]
  rw [hfrag [], mapGet_mapInsert]
  simp

theorem parseFragment_empty_value_w :
    parseFragment [] ((("k").data) ++ [('=')]) = mapInsert (("k").data) [] [] ∧
    mapGet (("k").data) (parse_query_string (('?') :: ((("k").data) ++ [('=')]))) = some [] :=
  parseFragment_empty_value [] (("k").data) (by decide) (by decide) (by decide)

/-- C7: running the bootstrap against an absent store creates it and
seeds exactly 10000 rows named value0 through value9999; running it
against an existing store (even one with no rows) changes nothing. -/
theorem new_conn_bootstrap :
    (∀ r : List User,
      (new_conn ⟨false, r⟩).present = true ∧
      (new_conn ⟨false, r⟩).rows.length = 10000 ∧
      (new_conn ⟨false, r⟩).rows.map User.name = (List.range 10000).map seedName) ∧
    (∀ db : DbState, db.present = true → new_conn db = db) := by
  constructor
  · intro r
    refine ⟨?_, ?_, ?_⟩ <;>
      simp [new_conn, seed_foldl, List.map_map, Function.comp]
  · intro db h
    simp [new_conn, h]

theorem new_conn_bootstrap_w : new_conn ⟨true, []⟩ = ⟨true, []⟩ :=
  new_conn_bootstrap.2 ⟨true, []⟩ rfl

/-- C1 (refuting the claim as stated): whenever the whitespace-split of
the buffer yields exactly one token (fewer than the minimum two), the
guard `parts.len() < 1` at line 50 does not fire and the indexing
`parts[1]` at line 55 falls outside the token list: the handler panics
instead of logging and returning normally (it still writes nothing). -/
theorem handle_connection_single_token_panics : ∀ (buf : List Char) (store : Store),
    (splitWhitespace buf).length = 1 →
    handle_connection buf store = ⟨[], [], 0, true⟩ := by
  intro buf store h
  have h2 : (splitWhitespace buf).get? 1 = none := by
    rw [List.get?_eq_none]
    omega
  simp only [handle_connection, h2]
  rw [if_neg (by omega)]

theorem handle_connection_single_token_panics_w :
    handle_connection (("GET").data) noStore = ⟨[], [], 0, true⟩ :=
  handle_connection_single_token_panics (("GET").data) noStore (by decide)

/-- C2: for every buffer whose read succeeded, the handler writes at most
one response: its write list is empty (silent drop, including the panic
path, which writes nothing) or a single response; never two. -/
theorem handle_connection_single_response : ∀ (buf : List Char) (store : Store),
    (handle_connection buf store).writes = [] ∨
    ∃ r, (handle_connection buf store).writes = [r] := by
  intro buf store
  simp only [handle_connection]
  repeat' split
  all_goals first
    | exact Or.inl rfl
    | exact Or.inr ⟨_, rfl⟩

/-- C8: whenever the second whitespace token of the buffer, truncated at
the first `'?'`, is the path `/`, the handler writes exactly the fixed
200 HTML greeting, whatever query string follows. -/
theorem handle_connection_root : ∀ (buf : List Char) (store : Store) (pt : List Char),
    (splitWhitespace buf).get? 1 = some pt →
    pt.takeWhile (fun c => c ≠ ('?')) = ("/").data →
    handle_connection buf store = ⟨[resp200Html], [], 0, false⟩ := by
  intro buf store pt h1 h2
  have hlen : 1 < (splitWhitespace buf).length := by
    rcases List.get?_eq_some.mp h1 with ⟨hl, _⟩
    exact hl
  have hne : ¬ pt.length = 0 := by
    intro h0
    rw [List.length_eq_zero.mp h0] at h2
    simp at h2
  simp only [handle_connection, h1]
  rw [if_neg (by omega), if_neg hne, h2, if_pos rfl]

theorem handle_connection_root_w :
    handle_connection (("GET /?x=1 HTTP/1.1").data) noStore =
      ⟨[resp200Html], [], 0, false⟩ :=
  handle_connection_root (("GET /?x=1 HTTP/1.1").data) noStore (("/?x=1").data)
    (by decide) (by decide)

/-- C3: whenever routing reaches `/get`: with no `id` key in the parsed
query the handler writes the 400 response and performs no store access;
with an `id` whose lookup succeeds it writes the single 200 response
embedding that user's name and id; with an `id` whose lookup fails (no
row or store error) it writes the 400 response. -/
theorem handle_connection_get_route : ∀ (buf : List Char) (store : Store) (pt : List Char),
    (splitWhitespace buf).get? 1 = some pt →
    pt.takeWhile (fun c => c ≠ ('?')) = ("/get").data →
    (mapGet (("id").data)
        (parse_query_string ((splitWhitespace (firstLine buf)).getD 1 [])) = none →
      handle_connection buf store = ⟨[resp400], [], 0, false⟩) ∧
    (∀ uid u,
      mapGet (("id").data)
        (parse_query_string ((splitWhitespace (firstLine buf)).getD 1 [])) = some uid →
      store.lookup uid = some u →
      handle_connection buf store = ⟨[respGetOk u], [uid], 0, false⟩ ∧
      containsSub u.name (respGetOk u) = true ∧
      containsSub ((Nat.repr u.id).data) (respGetOk u) = true) ∧
    (∀ uid,
      mapGet (("id").data)
        (parse_query_string ((splitWhitespace (firstLine buf)).getD 1 [])) = some uid →
      store.lookup uid = none →
      handle_connection buf store = ⟨[resp400], [uid], 0, false⟩) := by
  intro buf store pt h1 h2
  have hlen : 1 < (splitWhitespace buf).length := by
    rcases List.get?_eq_some.mp h1 with ⟨hl, _⟩
    exact hl
  have hne : ¬ pt.length = 0 := by
    intro h0
    rw [List.length_eq_zero.mp h0] at h2
    simp at h2
  refine ⟨?_, ?_, ?_⟩
  · intro hm
    simp only [handle_connection, h1, hm]
    rw [if_neg (by omega), if_neg hne, h2, if_neg (by decide), if_pos rfl]
  · intro uid u hm hl
    refine ⟨?_, ?_, ?_⟩
    · simp only [handle_connection, h1, hm, hl]
      rw [if_neg (by omega), if_neg hne, h2, if_neg (by decide), if_pos rfl]
    · simp only [respGetOk, List.append_assoc]
      apply containsSub_append_left
      apply containsSub_append_left
      exact containsSub_self_append _ _
    · simp only [respGetOk, List.append_assoc]
      apply containsSub_append_left
      apply containsSub_append_left
      apply containsSub_append_left
      apply containsSub_append_left
      exact containsSub_self_append _ _
  · intro uid hm hl
    simp only [handle_connection, h1, hm, hl]
    rw [if_neg (by omega), if_neg hne, h2, if_neg (by decide), if_pos rfl]

theorem handle_connection_get_route_w :
    handle_connection (("GET /get?id=5 HTTP/1.1").data) demoStore =
      ⟨[respGetOk ⟨5, ("value5").data⟩], [("5").data], 0, false⟩ ∧
    containsSub (("value5").data) (respGetOk ⟨5, ("value5").data⟩) = true ∧
    containsSub ((Nat.repr 5).data) (respGetOk ⟨5, ("value5").data⟩) = true :=
  ((handle_connection_get_route (("GET /get?id=5 HTTP/1.1").data) demoStore
      (("/get?id=5").data) (by decide) (by decide)).2.1
    (("5").data) ⟨5, ("value5").data⟩ (by decide) (by decide))

lemma wellFormedResp_resp200Html : wellFormedResp resp200Html :=
  ⟨("HTTP/1.1 200 OK").data, ("text/html").data,
    ("<html><body>Hola</body></html>").data, by decide, by decide, by decide⟩

lemma wellFormedResp_resp400 : wellFormedResp resp400 :=
  ⟨("HTTP/1.1 400 BAD REQUEST").data, ("text/html").data,
    ("<html><body>400 Bad Request</body></html>").data, by decide, by decide, by decide⟩

lemma wellFormedResp_resp200Healthy : wellFormedResp resp200Healthy :=
  ⟨("HTTP/1.1 200 OK").data, ("text/plain").data, ("Healthy").data,
    by decide, by decide, by decide⟩

lemma wellFormedResp_resp500UnHealthy : wellFormedResp resp500UnHealthy :=
  ⟨("HTTP/1.1 500 INTERNAL SERVER ERROR").data, ("text/plain").data, ("UnHealthy").data,
    by decide, by decide, by decide⟩

lemma wellFormedResp_respGetOk (u : User) : wellFormedResp (respGetOk u) := by
  refine ⟨("HTTP/1.1 200 OK").data, ("text/json").data,
    ("name - ").data ++ u.name ++ ("\nid - ").data ++ (Nat.repr u.id).data,
    ?_, by decide, by decide⟩
  have hsplit : ("HTTP/1.1 200 OK\r\nContent-Type: text/json; charset=UTF-8\r\n\r\n").data =
      headerOf (("HTTP/1.1 200 OK").data) (("text/json").data) ++ ("\r\n\r\n").data := by
    decide
  rw [respGetOk, hsplit]

/-- C9: every response written by any branch of the handler has the exact
framing status line, CRLF, Content-Type header ending in the UTF-8
charset suffix, blank line, body, trailing CRLF, and its header section
carries no Content-Length header and no chunked transfer encoding. -/
theorem handle_connection_responses_wellformed :
    ∀ (buf : List Char) (store : Store) (r : List Char),
    r ∈ (handle_connection buf store).writes → wellFormedResp r := by
  intro buf store r hr
  simp only [handle_connection] at hr
  repeat' split at hr
  all_goals simp only [List.mem_singleton, List.not_mem_nil] at hr
  all_goals subst hr
  all_goals first
    | exact wellFormedResp_resp200Html
    | exact wellFormedResp_resp400
    | exact wellFormedResp_resp200Healthy
    | exact wellFormedResp_resp500UnHealthy
    | exact wellFormedResp_respGetOk _

theorem handle_connection_responses_wellformed_w : wellFormedResp resp200Html :=
  handle_connection_responses_wellformed (("GET / HTTP/1.1").data) noStore resp200Html
    (by decide)
